import Mathlib

/-!
Verification development for the zotify-downloader service.

Shallow embedding of the Python sources under `src/downloader/`:
* `backlog_manager.py` — the durable FIFO backlog store,
* `spotify_listener.py` — token management, playback polling, transition detection,
* `download_processor.py` — the batch download loop over the backlog.

The durable store is a JSON file; it is modelled by `StoreFile`: missing
(`FileNotFoundError`), present but not decodable as JSON
(`json.JSONDecodeError`), or decoded to a list of track records.  Network
interactions are modelled by passing the environment's responses as explicit
arguments; the raising of a Python exception is modelled by `Except`.
-/

namespace ZotifyDownloader

/-- A track record, as the dict produced by
`SpotifyListener.get_currently_playing` and stored by `BacklogManager`.
Field names follow the Python keys; `added_at` is `none` when the key
`"added_at"` is absent from the dict. -/
structure TrackInfo where
  track_id : String
  track_name : String
  artists : List String
  album : String
  spotify_url : String
  uri : String
  timestamp : String
  is_playing : Bool
  progress_ms : Int
  duration_ms : Int
  added_at : Option String
deriving DecidableEq

/-- The state of the durable backlog record (`backlog.json`):
absent, present but not valid JSON, or decoded to a list of entries. -/
inductive StoreFile where
  | missing : StoreFile
  | malformed (text : String) : StoreFile
  | wellFormed (entries : List TrackInfo) : StoreFile
deriving DecidableEq

/-- `BacklogManager._read_backlog`: `json.load` the file, and on
`json.JSONDecodeError` or `FileNotFoundError` return `[]`. -/
def read_backlog : StoreFile → List TrackInfo
  | .missing => []
  | .malformed _ => []
  | .wellFormed entries => entries

/-- `BacklogManager._write_backlog`: `json.dump` the list into the file. -/
def write_backlog (backlog : List TrackInfo) : StoreFile :=
  .wellFormed backlog

/-- The outcome of one `BacklogManager` operation: its Python return value,
the file state afterwards, and the list of `_write_backlog` calls it made
(each with the payload written). -/
structure OpResult (α : Type) where
  ret : α
  store : StoreFile
  writes : List (List TrackInfo)
deriving DecidableEq

/-- The `"added_at"` stamping step of `BacklogManager.add_track`:
`if "added_at" not in track_info: track_info["added_at"] = now`. -/
def stampAddedAt (track_info : TrackInfo) (now : String) : TrackInfo :=
  match track_info.added_at with
  | some _ => track_info
  | none => { track_info with added_at := some now }

/-- `BacklogManager.add_track`: append to the tail unless an entry with the
same `track_id` is present; returns whether it was added.  `now` stands for
`datetime.now().isoformat()`. -/
def add_track (s : StoreFile) (track_info : TrackInfo) (now : String) : OpResult Bool :=
  let backlog := read_backlog s
  if backlog.any (fun item => item.track_id == track_info.track_id) then
    ⟨false, s, []⟩
  else
    let stamped := stampAddedAt track_info now
    let backlog1 := backlog ++ [stamped]
    ⟨true, write_backlog backlog1, [backlog1]⟩

/-- `BacklogManager.get_next_track`: return the head entry (FIFO), or
`None` when the backlog is empty; performs no write. -/
def get_next_track (s : StoreFile) : OpResult (Option TrackInfo) :=
  let backlog := read_backlog s
  match backlog with
  | [] => ⟨none, s, []⟩
  | t :: _ => ⟨some t, s, []⟩

/-- `BacklogManager.remove_track`: filter out every entry with the given
`track_id`; write back (and return `True`) only when the list shrank. -/
def remove_track (s : StoreFile) (track_id : String) : OpResult Bool :=
  let backlog := read_backlog s
  let backlog1 := backlog.filter (fun item => item.track_id != track_id)
  if backlog1.length < backlog.length then
    ⟨true, write_backlog backlog1, [backlog1]⟩
  else
    ⟨false, s, []⟩

/-- `BacklogManager.get_all_tracks`. -/
def get_all_tracks (s : StoreFile) : OpResult (List TrackInfo) :=
  ⟨read_backlog s, s, []⟩

/-- `BacklogManager.clear_backlog`. -/
def clear_backlog (_s : StoreFile) : OpResult Unit :=
  ⟨(), write_backlog [], [[]]⟩

/-- `BacklogManager.get_backlog_size`. -/
def get_backlog_size (s : StoreFile) : OpResult Nat :=
  ⟨(read_backlog s).length, s, []⟩

/-- A concrete track record used in witnesses and counterexamples. -/
def sampleTrack (id : String) : TrackInfo :=
  { track_id := id
    track_name := "Song"
    artists := ["Artist"]
    album := "Album"
    spotify_url := "https://open.spotify.com/track/" ++ id
    uri := "spotify:track:" ++ id
    timestamp := "2026-01-01T00:00:00"
    is_playing := true
    progress_ms := 0
    duration_ms := 1000
    added_at := some "2026-01-01T00:00:00" }

/-! ## SpotifyListener (`spotify_listener.py`)

The mutable listener state is `access_token` / `token_expires_at` /
`last_track_id`.  Each HTTP interaction is modelled by an explicit argument
describing the environment's response; a raised Python exception is an
`Except.error` carrying a `PyErr`. -/

/-- The Python exceptions that flow through `spotify_listener.py`:
`requests.exceptions.HTTPError` (from `raise_for_status`, carrying the
response status), any other `requests.exceptions.RequestException`
(connection error, timeout, ...), and `ValueError`
(`"No access token in response"`). -/
inductive PyErr where
  | httpError (status : Nat) : PyErr
  | netError : PyErr
  | valueError : PyErr
deriving DecidableEq

/-- The token-manager part of the listener state:
`self.access_token` and `self.token_expires_at`. -/
structure TokenState where
  access_token : Option String
  token_expires_at : Int
deriving DecidableEq

/-- The environment's behaviour for one `requests.post` against the token
endpoint: the request raises, or a response arrives with the given status
whose JSON body has the given `access_token` and `expires_in` fields
(`none` = field absent). -/
inductive ExchangeOutcome where
  | netFail : ExchangeOutcome
  | resp (status : Nat) (access_token : Option String) (expires_in : Option Int) : ExchangeOutcome
deriving DecidableEq

/-- The refresh-token exchange inside `SpotifyListener._get_access_token`
(the part after the cache check): `requests.post`, `raise_for_status`
(raises `HTTPError` on a 4xx/5xx status), `token_data.get("access_token")`
with the falsy check `if not access_token`, then caching with
`token_expires_at = time.time() + expires_in - 60` where `expires_in`
defaults to 3600.  The `except RequestException` clause only logs and
re-raises, so every failure propagates.  The third component records
whether the exchange (the `requests.post`) was performed. -/
def refresh_exchange (st : TokenState) (now : Int) (x : ExchangeOutcome) :
    Except PyErr String × TokenState × Bool :=
  match x with
  | .netFail => (Except.error .netError, st, true)
  | .resp status access_token expires_in =>
    if 400 ≤ status then
      (Except.error (.httpError status), st, true)
    else
      match access_token with
      | none => (Except.error .valueError, st, true)
      | some tok =>
        if tok = "" then
          (Except.error .valueError, st, true)
        else
          (Except.ok tok,
           { access_token := some tok,
             token_expires_at := now + expires_in.getD 3600 - 60 },
           true)

/-- `SpotifyListener._get_access_token`: return the cached token when
`self.access_token` is truthy and `time.time() < self.token_expires_at`;
otherwise perform the refresh exchange. -/
def get_access_token (st : TokenState) (now : Int) (x : ExchangeOutcome) :
    Except PyErr String × TokenState × Bool :=
  match st.access_token with
  | some tok =>
    if tok ≠ "" ∧ now < st.token_expires_at then
      (Except.ok tok, st, false)
    else
      refresh_exchange st now x
  | none => refresh_exchange st now x

/-- The `"item"` object of a currently-playing response body, with the
fields `get_currently_playing` reads from it (`none` = key absent). -/
structure TrackItem where
  id : String
  name : String
  artists : Option (List String)
  album_name : Option String
  spotify_url : Option String
  uri : Option String
  duration_ms : Option Int
deriving DecidableEq

/-- A decoded currently-playing response body.  `item = none` models the
`"item"` key being absent (or the body being empty/falsy), and
`item = some none` models `"item": null`; both yield `None`. -/
structure PlaybackBody where
  item : Option (Option TrackItem)
  currently_playing_type : Option String
  is_playing : Option Bool
  progress_ms : Option Int
deriving DecidableEq

/-- The environment's behaviour for one `requests.get` against the
currently-playing endpoint. -/
inductive HttpResult where
  | netFail : HttpResult
  | resp (status : Nat) (body : PlaybackBody) : HttpResult
deriving DecidableEq

/-- `SpotifyListener._make_api_request`: fetch a token (exceptions
propagate), issue the GET, return `None` on a 204 status, raise
`HTTPError` on 4xx/5xx, otherwise return the body. -/
def make_api_request (st : TokenState) (now : Int) (x : ExchangeOutcome) (h : HttpResult) :
    Except PyErr (Option PlaybackBody) × TokenState × Bool :=
  match get_access_token st now x with
  | (Except.error e, st1, performed) => (Except.error e, st1, performed)
  | (Except.ok _, st1, performed) =>
    match h with
    | .netFail => (Except.error .netError, st1, performed)
    | .resp status body =>
      if status = 204 then (Except.ok none, st1, performed)
      else if 400 ≤ status then (Except.error (.httpError status), st1, performed)
      else (Except.ok (some body), st1, performed)

/-- The dict `get_currently_playing` builds from the response, with each
`dict.get` default from the source; `nowIso` stands for
`datetime.now().isoformat()`. -/
def mkCurrentTrack (track : TrackItem) (data : PlaybackBody) (nowIso : String) : TrackInfo :=
  { track_id := track.id
    track_name := track.name
    artists := track.artists.getD []
    album := track.album_name.getD "Unknown Album"
    spotify_url := track.spotify_url.getD ""
    uri := track.uri.getD ""
    timestamp := nowIso
    is_playing := data.is_playing.getD false
    progress_ms := data.progress_ms.getD 0
    duration_ms := track.duration_ms.getD 0
    added_at := none }

/-- The body of the `try` block of `SpotifyListener.get_currently_playing`:
`None` when the body is falsy, has no `"item"`, or `"item"` is null; `None`
when `currently_playing_type` (default `"track"`) is not `"track"`;
otherwise the constructed track dict. -/
def currently_playing_body (r : Except PyErr (Option PlaybackBody)) (nowIso : String) :
    Except PyErr (Option TrackInfo) :=
  match r with
  | Except.error e => Except.error e
  | Except.ok none => Except.ok none
  | Except.ok (some data) =>
    match data.item with
    | none => Except.ok none
    | some none => Except.ok none
    | some (some track) =>
      if data.currently_playing_type.getD "track" ≠ "track" then Except.ok none
      else Except.ok (some (mkCurrentTrack track data nowIso))

/-- `SpotifyListener.get_currently_playing` with its exception handlers:
an `HTTPError` with status 204 becomes `None`, any other `HTTPError` is
re-raised, and every other exception is swallowed
(`except Exception: return None`). -/
def get_currently_playing (st : TokenState) (now : Int) (nowIso : String)
    (x : ExchangeOutcome) (h : HttpResult) :
    Except PyErr (Option TrackInfo) × TokenState :=
  let r := make_api_request st now x h
  match currently_playing_body r.1 nowIso with
  | Except.error (PyErr.httpError status) =>
    if status = 204 then (Except.ok none, r.2.1)
    else (Except.error (PyErr.httpError status), r.2.1)
  | Except.error _ => (Except.ok none, r.2.1)
  | Except.ok v => (Except.ok v, r.2.1)

/-- A playback body with every optional field absent. -/
def emptyBody : PlaybackBody := ⟨none, none, none, none⟩

/-- What the exception handlers of `get_currently_playing` produce for a
raised exception `e`. -/
def poll_handler (e : PyErr) : Except PyErr (Option TrackInfo) :=
  match e with
  | PyErr.httpError status =>
    if status = 204 then Except.ok none else Except.error (PyErr.httpError status)
  | _ => Except.ok none

/-- The transition-detection step of `SpotifyListener.check_for_new_track`
(lines after the poll), as a function of the held `self.last_track_id` and
the poll result: `None` when nothing came back or `is_playing` is falsy;
when the identifier differs from `last_track_id`, update it and return the
track; otherwise `None`.  Returns (result, new `last_track_id`). -/
def check_step (last_track_id : Option String) (current_track : Option TrackInfo) :
    Option TrackInfo × Option String :=
  match current_track with
  | none => (none, last_track_id)
  | some t =>
    if t.is_playing = false then (none, last_track_id)
    else if some t.track_id ≠ last_track_id then (some t, some t.track_id)
    else (none, last_track_id)

/-- The full listener state: token manager fields plus `self.last_track_id`. -/
structure ListenerState where
  token : TokenState
  last_track_id : Option String
deriving DecidableEq

/-- `SpotifyListener.check_for_new_track`: poll, then apply the
transition-detection step; exceptions from the poll propagate. -/
def check_for_new_track (ls : ListenerState) (now : Int) (nowIso : String)
    (x : ExchangeOutcome) (h : HttpResult) :
    Except PyErr (Option TrackInfo) × ListenerState :=
  match get_currently_playing ls.token now nowIso x h with
  | (Except.error e, tk1) => (Except.error e, ⟨tk1, ls.last_track_id⟩)
  | (Except.ok current_track, tk1) =>
    let step := check_step ls.last_track_id current_track
    (Except.ok step.1, ⟨tk1, step.2⟩)

/-! ## DownloadProcessor (`download_processor.py`)

The external retrieval capability `download_from_urls([url])` is modelled
by a function from the URL to an outcome (success, `False`, or a raised
exception).  Zotify session initialization is an out-of-scope external
collaborator and is modelled as succeeding. -/

/-- One invocation of the external retrieval capability. -/
inductive DlOutcome where
  | success : DlOutcome
  | failure : DlOutcome
  | raised : DlOutcome
deriving DecidableEq

/-- Executable model of Python `str.startswith` (kernel-reducible, unlike
`String.startsWith`). -/
def strStarts (s pre : String) : Bool :=
  pre.data.isPrefixOf s.data

/-- Fuel-driven worker for `strReplace`; the fuel is the length of the
remaining text, so it never runs out. -/
def replaceFuel (pat rep : List Char) : Nat → List Char → List Char
  | _, [] => []
  | 0, rest => rest
  | Nat.succ fuel, c :: cs =>
    if pat.isPrefixOf (c :: cs) then
      rep ++ replaceFuel pat rep fuel ((c :: cs).drop pat.length)
    else
      c :: replaceFuel pat rep fuel cs

/-- Executable model of Python `str.replace`: replace every
(left-to-right, non-overlapping) occurrence of `pat` by `rep`; with an
empty pattern the source behaviour we rely on is the identity. -/
def strReplace (s pat rep : String) : String :=
  if pat.data.isEmpty then s
  else ⟨replaceFuel pat.data rep.data s.data.length s.data⟩

/-- `DownloadProcessor.download_track`: pick `spotify_url` or (when that is
falsy) `uri`, rewrite a `spotify:track:` URI to an `https` URL, fail
without calling the capability when the result is empty or not an `http`
URL, otherwise call the capability; a raised exception is caught and
becomes `False`.  The second component records the capability invocations
(the URLs passed to `download_from_urls`). -/
def download_track (cap : String → DlOutcome) (track_info : TrackInfo) :
    Bool × List String :=
  let spotify_url :=
    if track_info.spotify_url ≠ "" then track_info.spotify_url else track_info.uri
  let spotify_url1 :=
    if strStarts spotify_url "spotify:track:" then
      "https://open.spotify.com/track/" ++ (strReplace spotify_url "spotify:track:" "")
    else spotify_url
  if spotify_url1 = "" ∨ ¬ strStarts spotify_url1 "http" then
    (false, [])
  else
    match cap spotify_url1 with
    | .success => (true, [spotify_url1])
    | .failure => (false, [spotify_url1])
    | .raised => (false, [spotify_url1])

/-- The outcome of `DownloadProcessor.process_backlog`: the returned count,
the final store state, the tracks passed to `download_track` in order, and
the capability invocations in order. -/
structure BatchResult where
  downloaded : Nat
  store : StoreFile
  attempts : List TrackInfo
  capCalls : List String
deriving DecidableEq

/-- `DownloadProcessor.process_backlog`: up to `max_tracks` times, peek the
front entry (stop when the backlog is empty), attempt the download; on
success remove the entry by id and count it, on failure leave the backlog
untouched. -/
def process_backlog (cap : String → DlOutcome) : Nat → StoreFile → BatchResult
  | 0, s => ⟨0, s, [], []⟩
  | Nat.succ max_tracks, s =>
    match (get_next_track s).ret with
    | none => ⟨0, s, [], []⟩
    | some track =>
      let d := download_track cap track
      if d.1 then
        let s1 := (remove_track s track.track_id).store
        let r := process_backlog cap max_tracks s1
        ⟨r.downloaded + 1, r.store, track :: r.attempts, d.2 ++ r.capCalls⟩
      else
        let r := process_backlog cap max_tracks s
        ⟨r.downloaded, r.store, track :: r.attempts, d.2 ++ r.capCalls⟩

/-! ## Helper lemmas -/

theorem stampAddedAt_track_id (e : TrackInfo) (t : String) :
    (stampAddedAt e t).track_id = e.track_id := by
  unfold stampAddedAt
  cases e.added_at <;> rfl

theorem length_filter_lt_of_mem {l : List TrackInfo} {tid : String}
    (e : TrackInfo) (he : e ∈ l) (heq : e.track_id = tid) :
    (l.filter (fun item => item.track_id != tid)).length < l.length := by
  refine Nat.lt_of_le_of_ne (List.length_filter_le _ l) ?_
  intro hlen
  have hall := List.filter_length_eq_length.mp hlen e he
  simp [heq] at hall

/-! ## Claim theorems -/

/-- C8. `peekFront` is non-mutating: `get_next_track` returns the head
entry (`none` on an empty store), leaves the store state exactly as it
was, and performs no write. -/
theorem get_next_track_non_mutating (s : StoreFile) :
    (get_next_track s).ret = (read_backlog s).head? ∧
    (get_next_track s).store = s ∧
    (get_next_track s).writes = [] := by
  unfold get_next_track
  cases read_backlog s <;> simp

/-- C5. Self-healing persistence read: a missing or malformed store record
reads as the empty collection (no exception escapes `_read_backlog`), so
`get_backlog_size` is `0`, `get_next_track` is `none`, and
`get_all_tracks` is `[]` in those states. -/
theorem read_backlog_self_healing (s : StoreFile)
    (h : s = StoreFile.missing ∨ ∃ text, s = StoreFile.malformed text) :
    read_backlog s = [] ∧
    (get_backlog_size s).ret = 0 ∧
    (get_next_track s).ret = none ∧
    (get_all_tracks s).ret = [] := by
  rcases h with h | ⟨text, h⟩ <;>
    subst h <;>
    simp [read_backlog, get_backlog_size, get_next_track, get_all_tracks]

/-- Witness for C5 at the missing-record state. -/
theorem read_backlog_self_healing_witness :
    (StoreFile.missing = StoreFile.missing ∨
      ∃ text, StoreFile.missing = StoreFile.malformed text) ∧
    (read_backlog StoreFile.missing = [] ∧
     (get_backlog_size StoreFile.missing).ret = 0 ∧
     (get_next_track StoreFile.missing).ret = none ∧
     (get_all_tracks StoreFile.missing).ret = []) :=
  ⟨Or.inl rfl, read_backlog_self_healing StoreFile.missing (Or.inl rfl)⟩

/-- C9. `removeById` scope and atomicity: with no matching entry,
`remove_track` returns `false` and performs no write; with at least one
matching entry it performs exactly one write whose payload is the original
sequence with every matching entry removed (so none remains, even from a
state with duplicate identifiers), preserves the relative order of the
other entries (the result is a sublist of the original), and returns
`true`. -/
theorem remove_track_scope (s : StoreFile) (track_id : String) :
    ((∀ e ∈ read_backlog s, e.track_id ≠ track_id) →
       remove_track s track_id = ⟨false, s, []⟩) ∧
    ((∃ e ∈ read_backlog s, e.track_id = track_id) →
       (remove_track s track_id).ret = true ∧
       (remove_track s track_id).writes
         = [(read_backlog s).filter (fun item => item.track_id != track_id)] ∧
       read_backlog (remove_track s track_id).store
         = (read_backlog s).filter (fun item => item.track_id != track_id) ∧
       (∀ e ∈ read_backlog (remove_track s track_id).store, e.track_id ≠ track_id) ∧
       List.Sublist (read_backlog (remove_track s track_id).store) (read_backlog s)) := by
  constructor
  · intro habsent
    have hself : (read_backlog s).filter (fun item => item.track_id != track_id)
        = read_backlog s := by
      refine List.filter_eq_self.mpr ?_
      intro a ha
      simpa using habsent a ha
    unfold remove_track
    simp [hself]
  · rintro ⟨e, he, heq⟩
    have hlt := length_filter_lt_of_mem e he heq
    have hrt : remove_track s track_id
        = ⟨true,
           write_backlog ((read_backlog s).filter (fun item => item.track_id != track_id)),
           [(read_backlog s).filter (fun item => item.track_id != track_id)]⟩ := by
      unfold remove_track
      simp [hlt]
    rw [hrt]
    refine ⟨rfl, rfl, rfl, ?_, ?_⟩
    · intro a ha
      have := (List.mem_filter.mp ha).2
      simpa using this
    · exact List.filter_sublist _

/-- Witness for C9: removal at a store containing the identifier, and the
no-write branch at a store not containing it. -/
theorem remove_track_scope_witness :
    ((remove_track (StoreFile.wellFormed [sampleTrack "1", sampleTrack "2"]) "1").ret = true ∧
     (remove_track (StoreFile.wellFormed [sampleTrack "1", sampleTrack "2"]) "1").writes
       = [(read_backlog (StoreFile.wellFormed [sampleTrack "1", sampleTrack "2"])).filter
            (fun item => item.track_id != "1")] ∧
     read_backlog (remove_track (StoreFile.wellFormed [sampleTrack "1", sampleTrack "2"]) "1").store
       = (read_backlog (StoreFile.wellFormed [sampleTrack "1", sampleTrack "2"])).filter
            (fun item => item.track_id != "1") ∧
     (∀ e ∈ read_backlog (remove_track (StoreFile.wellFormed [sampleTrack "1", sampleTrack "2"]) "1").store,
        e.track_id ≠ "1") ∧
     List.Sublist
       (read_backlog (remove_track (StoreFile.wellFormed [sampleTrack "1", sampleTrack "2"]) "1").store)
       (read_backlog (StoreFile.wellFormed [sampleTrack "1", sampleTrack "2"]))) ∧
    remove_track (StoreFile.wellFormed [sampleTrack "2"]) "1"
      = ⟨false, StoreFile.wellFormed [sampleTrack "2"], []⟩ :=
  ⟨(remove_track_scope (StoreFile.wellFormed [sampleTrack "1", sampleTrack "2"]) "1").2
      ⟨sampleTrack "1", by decide, rfl⟩,
   (remove_track_scope (StoreFile.wellFormed [sampleTrack "2"]) "1").1 (by decide)⟩

/-- C2 counterexample. The claim asserts that for *every* store state,
calling `enqueueIfAbsent` twice with the same identifier "returns true then
false".  On a store already holding the identifier, the first call already
returns `false`: here the store holds track `"1"` and the first
`add_track` with track `"1"` returns `false`, not `true`. -/
theorem add_track_idem_counterexample :
    (add_track (StoreFile.wellFormed [sampleTrack "1"]) (sampleTrack "1") "T1").ret = false ∧
    ¬ (add_track (StoreFile.wellFormed [sampleTrack "1"]) (sampleTrack "1") "T1").ret = true := by
  decide

/-- C2 (amended). `enqueueIfAbsent` is idempotent per identifier: the
first call returns `true` exactly when no entry with the identifier is
present, in which case the entry (with its `added_at` stamped) is appended
at the tail; when it returns `false` nothing is written and the store is
unchanged; and the second call with the same identifier always returns
`false`, writes nothing, and leaves the store exactly as after the first
call. -/
theorem add_track_idem_amended (s : StoreFile) (e : TrackInfo) (t1 t2 : String) :
    ((add_track s e t1).ret = true ↔ ∀ i ∈ read_backlog s, i.track_id ≠ e.track_id) ∧
    ((add_track s e t1).ret = true →
       read_backlog (add_track s e t1).store = read_backlog s ++ [stampAddedAt e t1]) ∧
    ((add_track s e t1).ret = false →
       (add_track s e t1).store = s ∧ (add_track s e t1).writes = []) ∧
    (add_track (add_track s e t1).store e t2).ret = false ∧
    (add_track (add_track s e t1).store e t2).store = (add_track s e t1).store ∧
    (add_track (add_track s e t1).store e t2).writes = [] := by
  by_cases hany : (read_backlog s).any (fun item => item.track_id == e.track_id) = true
  · have h1 : add_track s e t1 = ⟨false, s, []⟩ := by
      unfold add_track
      simp [hany]
    rw [h1]
    have h2 : add_track s e t2 = ⟨false, s, []⟩ := by
      unfold add_track
      simp [hany]
    refine ⟨?_, by simp [h1], by simp, by simp [h2], by simp [h2], by simp [h2]⟩
    constructor
    · intro hret
      simp [h1] at hret
    · intro habsent
      exfalso
      rcases List.any_eq_true.mp hany with ⟨i, hi, hieq⟩
      exact habsent i hi (by simpa using hieq)
  · have hfalse := Bool.eq_false_iff.mpr hany
    have h1 : add_track s e t1
        = ⟨true, write_backlog (read_backlog s ++ [stampAddedAt e t1]),
           [read_backlog s ++ [stampAddedAt e t1]]⟩ := by
      unfold add_track
      simp [hfalse]
    rw [h1]
    have hmem : (read_backlog (write_backlog (read_backlog s ++ [stampAddedAt e t1]))).any
        (fun item => item.track_id == e.track_id) = true := by
      refine List.any_eq_true.mpr ⟨stampAddedAt e t1, ?_, ?_⟩
      · simp [write_backlog, read_backlog]
      · simp [stampAddedAt_track_id]
    have h2 : add_track (write_backlog (read_backlog s ++ [stampAddedAt e t1])) e t2
        = ⟨false, write_backlog (read_backlog s ++ [stampAddedAt e t1]), []⟩ := by
      unfold add_track
      simp only [hmem, if_pos]
    refine ⟨?_, fun _ => rfl, by simp, by simp [h2], by simp [h2], by simp [h2]⟩
    constructor
    · intro _ i hi hieq
      exact hany (List.any_eq_true.mpr ⟨i, hi, by simpa using hieq⟩)
    · intro _
      rfl

/-- Witness for C2 (amended): on an empty store the first call appends the
stamped entry at the tail and the second call returns `false`. -/
theorem add_track_idem_amended_witness :
    read_backlog (add_track (StoreFile.wellFormed []) (sampleTrack "1") "T1").store
      = read_backlog (StoreFile.wellFormed []) ++ [stampAddedAt (sampleTrack "1") "T1"] ∧
    (add_track (add_track (StoreFile.wellFormed []) (sampleTrack "1") "T1").store
       (sampleTrack "1") "T2").ret = false :=
  ⟨(add_track_idem_amended (StoreFile.wellFormed []) (sampleTrack "1") "T1" "T2").2.1
      (by decide),
   (add_track_idem_amended (StoreFile.wellFormed []) (sampleTrack "1") "T1" "T2").2.2.2.1⟩

/-- C4. Transition detection: `check_for_new_track`'s step returns the
event exactly when the poll produced one, its `is_playing` flag is true,
and its identifier differs from the held `last_track_id` (in which case
`last_track_id` is updated to the new identifier); it returns `none` when
nothing is playing, the flag is false, or the identifier is unchanged. -/
theorem check_for_new_track_transition (last : Option String) (cur : Option TrackInfo) :
    (∀ t, cur = some t → t.is_playing = true → some t.track_id ≠ last →
       check_step last cur = (some t, some t.track_id)) ∧
    (cur = none → check_step last cur = (none, last)) ∧
    (∀ t, cur = some t → t.is_playing = false → check_step last cur = (none, last)) ∧
    (∀ t, cur = some t → some t.track_id = last → check_step last cur = (none, last)) ∧
    ((check_step last cur).1 ≠ none →
       ∃ t, cur = some t ∧ t.is_playing = true ∧ some t.track_id ≠ last) := by
  unfold check_step
  cases cur with
  | none => simp
  | some t =>
    by_cases hp : t.is_playing = false
    · simp [hp]
    · have hp1 : t.is_playing = true := by
        cases h : t.is_playing
        · exact absurd h hp
        · rfl
      by_cases hne : some t.track_id ≠ last
      · simp [hp, hp1, hne]
      · simp only [not_not] at hne
        simp [hp, hp1, hne]

/-- Witness for C4: from `last_track_id = none`, a playing track with a
fresh identifier is returned and becomes the new last-seen identifier. -/
theorem check_for_new_track_transition_witness :
    (sampleTrack "1").is_playing = true ∧
    some (sampleTrack "1").track_id ≠ (none : Option String) ∧
    check_step none (some (sampleTrack "1"))
      = (some (sampleTrack "1"), some (sampleTrack "1").track_id) :=
  ⟨by decide, by decide,
   (check_for_new_track_transition none (some (sampleTrack "1"))).1
     (sampleTrack "1") rfl (by decide) (by decide)⟩

/-- C10. Last-seen is stable on `none`: whenever the transition step
returns `none`, `last_track_id` is exactly what it was before; it changes
only when an event is returned, and is then that event's identifier.  In
particular a non-playing event never updates `last_track_id`. -/
theorem check_for_new_track_last_seen_stable (last : Option String) (cur : Option TrackInfo) :
    ((check_step last cur).1 = none → (check_step last cur).2 = last) ∧
    (∀ t, (check_step last cur).1 = some t →
       cur = some t ∧ (check_step last cur).2 = some t.track_id) ∧
    (∀ t, cur = some t → t.is_playing = false → (check_step last cur).2 = last) := by
  unfold check_step
  cases cur with
  | none => simp
  | some t =>
    by_cases hp : t.is_playing = false
    · simp [hp]
    · by_cases hne : some t.track_id ≠ last
      · simp [hp, hne]
      · simp only [not_not] at hne
        simp [hp, hne]

/-- Witness for C10: a paused poll result (`is_playing = false`) with a
different identifier leaves `last_track_id` untouched. -/
theorem check_for_new_track_last_seen_stable_witness :
    (check_step (some "0") (some { sampleTrack "1" with is_playing := false })).1 = none ∧
    (check_step (some "0") (some { sampleTrack "1" with is_playing := false })).2 = some "0" :=
  ⟨by decide,
   (check_for_new_track_last_seen_stable (some "0")
       (some { sampleTrack "1" with is_playing := false })).1 (by decide)⟩

theorem refresh_exchange_performed (st : TokenState) (now : Int) (x : ExchangeOutcome) :
    (refresh_exchange st now x).2.2 = true := by
  unfold refresh_exchange
  cases x with
  | netFail => rfl
  | resp status tokf lifetime =>
    by_cases h4 : 400 ≤ status
    · simp [h4]
    · cases tokf with
      | none => simp [h4]
      | some tok =>
        by_cases he : tok = "" <;> simp [h4, he]

theorem refresh_exchange_ok {st : TokenState} {now : Int} {x : ExchangeOutcome}
    {tok : String} {st1 : TokenState} {b : Bool}
    (h : refresh_exchange st now x = (Except.ok tok, st1, b)) :
    st1.access_token = some tok ∧ tok ≠ "" := by
  unfold refresh_exchange at h
  split at h
  · simp at h
  · split at h
    · simp at h
    · split at h
      · simp at h
      · split at h
        · simp at h
        · simp only [Prod.mk.injEq, Except.ok.injEq] at h
          obtain ⟨rfl, rfl, -⟩ := h
          exact ⟨rfl, by assumption⟩

theorem get_access_token_uncached {st : TokenState} {now : Int} (x : ExchangeOutcome)
    (h : st.access_token = none ∨
      ∃ tok, st.access_token = some tok ∧ (tok = "" ∨ st.token_expires_at ≤ now)) :
    get_access_token st now x = refresh_exchange st now x := by
  obtain ⟨atok, texp⟩ := st
  rcases h with h | ⟨tok, h, hcase⟩
  · obtain rfl : atok = none := h
    rfl
  · obtain rfl : atok = some tok := h
    have hnc : ¬ (tok ≠ "" ∧ now < TokenState.token_expires_at ⟨some tok, texp⟩) := by
      rcases hcase with he | hle
      · rintro ⟨hne, -⟩
        exact hne he
      · rintro ⟨-, hlt⟩
        exact absurd hlt (not_lt.mpr hle)
    simp only [get_access_token]
    rw [if_neg hnc]

/-- C3. Token caching and refresh: with a cached (nonempty) token whose
expiry instant is still in the future, `_get_access_token` returns it
unchanged and performs no exchange; otherwise the exchange is performed
(exactly once per call, by construction), and when it yields a token the
token is cached with expiry `now + expires_in − 60` and returned.  A
second call before the new expiry instant returns the identical token with
no second exchange. -/
theorem get_valid_token_caching :
    (∀ (st : TokenState) (now : Int) (x : ExchangeOutcome) (tok : String),
       st.access_token = some tok → tok ≠ "" → now < st.token_expires_at →
       get_access_token st now x = (Except.ok tok, st, false)) ∧
    (∀ (st : TokenState) (now : Int) (x : ExchangeOutcome),
       (st.access_token = none ∨
         ∃ tok, st.access_token = some tok ∧ (tok = "" ∨ st.token_expires_at ≤ now)) →
       (get_access_token st now x).2.2 = true ∧
       (∀ (status : Nat) (tokf : Option String) (lifetime : Option Int) (tok : String),
          x = ExchangeOutcome.resp status tokf lifetime → status < 400 →
          tokf = some tok → tok ≠ "" →
          get_access_token st now x
            = (Except.ok tok,
               { access_token := some tok,
                 token_expires_at := now + lifetime.getD 3600 - 60 }, true))) ∧
    (∀ (st : TokenState) (now : Int) (x : ExchangeOutcome) (tok : String)
       (st1 : TokenState) (now2 : Int) (x2 : ExchangeOutcome),
       get_access_token st now x = (Except.ok tok, st1, true) →
       now2 < st1.token_expires_at →
       get_access_token st1 now2 x2 = (Except.ok tok, st1, false)) := by
  have hcached : ∀ (st : TokenState) (now : Int) (x : ExchangeOutcome) (tok : String),
      st.access_token = some tok → tok ≠ "" → now < st.token_expires_at →
      get_access_token st now x = (Except.ok tok, st, false) := by
    intro st now x tok h he hlt
    obtain ⟨atok, texp⟩ := st
    obtain rfl : atok = some tok := h
    have hlt1 : now < texp := hlt
    simp [get_access_token, he, hlt1]
  refine ⟨hcached, ?_, ?_⟩
  · intro st now x h
    rw [get_access_token_uncached x h]
    refine ⟨refresh_exchange_performed st now x, ?_⟩
    rintro status tokf lifetime tok rfl h4 rfl he
    have h4n : ¬ 400 ≤ status := not_le.mpr h4
    simp [refresh_exchange, h4n, he]
  · intro st now x tok st1 now2 x2 h hlt
    have hr : refresh_exchange st now x = (Except.ok tok, st1, true) := by
      cases hst : st.access_token with
      | none =>
        rw [get_access_token_uncached x (Or.inl hst)] at h
        exact h
      | some t =>
        by_cases hc : t ≠ "" ∧ now < st.token_expires_at
        · rw [hcached st now x t hst hc.1 hc.2] at h
          simp at h
        · have hdisj : st.access_token = none ∨
              ∃ tk, st.access_token = some tk ∧ (tk = "" ∨ st.token_expires_at ≤ now) := by
            right
            refine ⟨t, hst, ?_⟩
            by_cases he : t = ""
            · exact Or.inl he
            · rcases not_and_or.mp hc with hne | hnlt
              · exact absurd (not_not.mp hne) he
              · exact Or.inr (not_lt.mp hnlt)
          rw [get_access_token_uncached x hdisj] at h
          exact h
    obtain ⟨hst1, hne⟩ := refresh_exchange_ok hr
    exact hcached st1 now2 x2 tok hst1 hne hlt

/-- Witness for C3: from an uncached state, one successful exchange caches
the token with expiry `now + 3600 − 60`, and a second call before that
instant returns the identical token without a second exchange. -/
theorem get_valid_token_caching_witness :
    get_access_token ⟨none, 0⟩ 100
      (ExchangeOutcome.resp 200 (some "tok") (some 3600))
      = (Except.ok "tok", ⟨some "tok", 100 + 3600 - 60⟩, true) ∧
    get_access_token ⟨some "tok", 100 + 3600 - 60⟩ 200 ExchangeOutcome.netFail
      = (Except.ok "tok", ⟨some "tok", 100 + 3600 - 60⟩, false) := by
  have h1 := (get_valid_token_caching.2.1 ⟨none, 0⟩ 100
      (ExchangeOutcome.resp 200 (some "tok") (some 3600)) (Or.inl rfl)).2
      200 (some "tok") (some 3600) "tok" rfl (by decide) rfl (by decide)
  exact ⟨h1,
    get_valid_token_caching.2.2 ⟨none, 0⟩ 100
      (ExchangeOutcome.resp 200 (some "tok") (some 3600)) "tok"
      ⟨some "tok", 100 + 3600 - 60⟩ 200 ExchangeOutcome.netFail
      h1 (by decide)⟩

theorem get_currently_playing_of_token_error {st : TokenState} {now : Int}
    {x : ExchangeOutcome} {e : PyErr} (nowIso : String) (h : HttpResult)
    (hx : (get_access_token st now x).1 = Except.error e) :
    (get_currently_playing st now nowIso x h).1 = poll_handler e := by
  rcases hgat : get_access_token st now x with ⟨res, st1, perf⟩
  rw [hgat] at hx
  simp only at hx
  subst hx
  unfold get_currently_playing make_api_request
  rw [hgat]
  cases e with
  | httpError status =>
    simp only [currently_playing_body, poll_handler]
    split <;> rfl
  | netError => simp [currently_playing_body, poll_handler]
  | valueError => simp [currently_playing_body, poll_handler]

/-- C7 counterexample. The claim says a token-exchange failure "surfaces
as an error propagated out of the poll ... ; it is not converted into a
None result by the poll".  But `get_currently_playing` ends in
`except Exception: return None`: with no cached token and a token exchange
that raises a network error, the poll returns `None` (no error), even
though the playback endpoint itself would have answered 200. -/
theorem auth_error_surfacing_counterexample :
    get_currently_playing ⟨none, 0⟩ 0 "T" ExchangeOutcome.netFail
      (HttpResult.resp 200 emptyBody)
      = (Except.ok none, ⟨none, 0⟩) := by
  rfl

/-- C7 (amended). Every token-exchange failure — network error, non-2xx
response, missing access-token field — propagates out of
`_get_access_token` itself.  Out of `get_currently_playing`, only an HTTP
(non-2xx) token-exchange failure propagates (its status being ≥ 400, the
204 check does not intercept it); a network error or a missing
access-token field during a poll is caught by the poll's
`except Exception` handler and converted into a `None` result. -/
theorem auth_error_surfacing_amended :
    (∀ (st : TokenState) (now : Int), st.access_token = none →
       (get_access_token st now ExchangeOutcome.netFail).1 = Except.error PyErr.netError ∧
       (∀ (status : Nat) (tokf : Option String) (lifetime : Option Int), 400 ≤ status →
          (get_access_token st now (ExchangeOutcome.resp status tokf lifetime)).1
            = Except.error (PyErr.httpError status)) ∧
       (∀ (status : Nat) (lifetime : Option Int), status < 400 →
          (get_access_token st now (ExchangeOutcome.resp status none lifetime)).1
            = Except.error PyErr.valueError)) ∧
    (∀ (st : TokenState) (now : Int) (nowIso : String) (h : HttpResult)
       (status : Nat) (tokf : Option String) (lifetime : Option Int),
       st.access_token = none → 400 ≤ status →
       (get_currently_playing st now nowIso
          (ExchangeOutcome.resp status tokf lifetime) h).1
         = Except.error (PyErr.httpError status)) ∧
    (∀ (st : TokenState) (now : Int) (nowIso : String) (h : HttpResult),
       st.access_token = none →
       (get_currently_playing st now nowIso ExchangeOutcome.netFail h).1
         = Except.ok none) ∧
    (∀ (st : TokenState) (now : Int) (nowIso : String) (h : HttpResult)
       (status : Nat) (lifetime : Option Int),
       st.access_token = none → status < 400 →
       (get_currently_playing st now nowIso
          (ExchangeOutcome.resp status none lifetime) h).1
         = Except.ok none) := by
  have huncached : ∀ (st : TokenState) (now : Int) (x : ExchangeOutcome),
      st.access_token = none → get_access_token st now x = refresh_exchange st now x := by
    intro st now x hst
    obtain ⟨atok, texp⟩ := st
    obtain rfl : atok = none := hst
    rfl
  have h1 : ∀ (st : TokenState) (now : Int), st.access_token = none →
      (get_access_token st now ExchangeOutcome.netFail).1 = Except.error PyErr.netError ∧
      (∀ (status : Nat) (tokf : Option String) (lifetime : Option Int), 400 ≤ status →
         (get_access_token st now (ExchangeOutcome.resp status tokf lifetime)).1
           = Except.error (PyErr.httpError status)) ∧
      (∀ (status : Nat) (lifetime : Option Int), status < 400 →
         (get_access_token st now (ExchangeOutcome.resp status none lifetime)).1
           = Except.error PyErr.valueError) := by
    intro st now hst
    refine ⟨?_, ?_, ?_⟩
    · rw [huncached st now ExchangeOutcome.netFail hst]
      rfl
    · intro status tokf lifetime h4
      rw [huncached st now _ hst]
      simp [refresh_exchange, h4]
    · intro status lifetime hlt
      rw [huncached st now _ hst]
      simp [refresh_exchange, not_le.mpr hlt]
  refine ⟨h1, ?_, ?_, ?_⟩
  · intro st now nowIso h status tokf lifetime hst h4
    have he := (h1 st now hst).2.1 status tokf lifetime h4
    rw [get_currently_playing_of_token_error nowIso h he]
    have : ¬ status = 204 := by omega
    simp [poll_handler, this]
  · intro st now nowIso h hst
    have he := (h1 st now hst).1
    rw [get_currently_playing_of_token_error nowIso h he]
    rfl
  · intro st now nowIso h status lifetime hst hlt
    have he := (h1 st now hst).2.2 status lifetime hlt
    rw [get_currently_playing_of_token_error nowIso h he]
    rfl

/-- Witness for C7 (amended): with no cached token, a 401 from the token
endpoint propagates out of the poll as an `HTTPError`, while a network
failure of the exchange yields a `None` poll result. -/
theorem auth_error_surfacing_amended_witness :
    (get_currently_playing ⟨none, 0⟩ 0 "T"
       (ExchangeOutcome.resp 401 none none) (HttpResult.resp 200 emptyBody)).1
      = Except.error (PyErr.httpError 401) ∧
    (get_currently_playing ⟨none, 0⟩ 0 "T"
       ExchangeOutcome.netFail (HttpResult.resp 200 emptyBody)).1
      = Except.ok none :=
  ⟨auth_error_surfacing_amended.2.1 ⟨none, 0⟩ 0 "T" (HttpResult.resp 200 emptyBody)
      401 none none rfl (by decide),
   auth_error_surfacing_amended.2.2.1 ⟨none, 0⟩ 0 "T" (HttpResult.resp 200 emptyBody) rfl⟩

theorem process_backlog_succ_fail {cap : String → DlOutcome} {s : StoreFile}
    {e : TrackInfo} (n : Nat)
    (hnext : (get_next_track s).ret = some e)
    (hfail : (download_track cap e).1 = false) :
    process_backlog cap (n + 1) s
      = ⟨(process_backlog cap n s).downloaded,
         (process_backlog cap n s).store,
         e :: (process_backlog cap n s).attempts,
         (download_track cap e).2 ++ (process_backlog cap n s).capCalls⟩ := by
  simp only [process_backlog]
  rw [hnext]
  simp [hfail]

theorem process_backlog_succ_ok {cap : String → DlOutcome} {s : StoreFile}
    {e : TrackInfo} (n : Nat)
    (hnext : (get_next_track s).ret = some e)
    (hok : (download_track cap e).1 = true) :
    process_backlog cap (n + 1) s
      = ⟨(process_backlog cap n (remove_track s e.track_id).store).downloaded + 1,
         (process_backlog cap n (remove_track s e.track_id).store).store,
         e :: (process_backlog cap n (remove_track s e.track_id).store).attempts,
         (download_track cap e).2
           ++ (process_backlog cap n (remove_track s e.track_id).store).capCalls⟩ := by
  simp only [process_backlog]
  rw [hnext]
  simp [hok]

/-- C1. Head-of-line blocking: when the front entry's retrieval attempt
fails, `process_backlog` spends every one of its `n` iterations
re-attempting that same front entry, downloads nothing, and leaves the
store untouched; entries behind the head are never attempted. -/
theorem head_of_line_blocking (cap : String → DlOutcome) (n : Nat) (s : StoreFile)
    (e : TrackInfo) (rest : List TrackInfo)
    (hread : read_backlog s = e :: rest)
    (hfail : (download_track cap e).1 = false) :
    (process_backlog cap n s).downloaded = 0 ∧
    (process_backlog cap n s).store = s ∧
    (process_backlog cap n s).attempts = List.replicate n e := by
  induction n with
  | zero => exact ⟨rfl, rfl, rfl⟩
  | succ n ih =>
    have hnext : (get_next_track s).ret = some e := by
      simp [get_next_track, hread]
    rw [process_backlog_succ_fail n hnext hfail]
    exact ⟨ih.1, ih.2.1, by rw [List.replicate_succ]; exact congrArg (e :: ·) ih.2.2⟩

/-- Witness for C1: a capability that always fails, a two-entry store, and
a batch of 3: zero successes, store unchanged, and the front entry
attempted three times (the second entry never). -/
theorem head_of_line_blocking_witness :
    read_backlog (StoreFile.wellFormed [sampleTrack "1", sampleTrack "2"])
      = sampleTrack "1" :: [sampleTrack "2"] ∧
    (download_track (fun _ => DlOutcome.failure) (sampleTrack "1")).1 = false ∧
    ((process_backlog (fun _ => DlOutcome.failure) 3
        (StoreFile.wellFormed [sampleTrack "1", sampleTrack "2"])).downloaded = 0 ∧
     (process_backlog (fun _ => DlOutcome.failure) 3
        (StoreFile.wellFormed [sampleTrack "1", sampleTrack "2"])).store
       = StoreFile.wellFormed [sampleTrack "1", sampleTrack "2"] ∧
     (process_backlog (fun _ => DlOutcome.failure) 3
        (StoreFile.wellFormed [sampleTrack "1", sampleTrack "2"])).attempts
       = List.replicate 3 (sampleTrack "1")) :=
  ⟨rfl, by decide,
   head_of_line_blocking (fun _ => DlOutcome.failure) 3
     (StoreFile.wellFormed [sampleTrack "1", sampleTrack "2"])
     (sampleTrack "1") [sampleTrack "2"] rfl (by decide)⟩

theorem remove_track_head {s : StoreFile} {e : TrackInfo} {rest : List TrackInfo}
    (hread : read_backlog s = e :: rest)
    (hni : e.track_id ∉ rest.map TrackInfo.track_id) :
    (remove_track s e.track_id).store = write_backlog rest := by
  have hne : ∀ x ∈ rest, (x.track_id != e.track_id) = true := by
    intro x hx
    have hx1 : x.track_id ≠ e.track_id := by
      intro hc
      exact hni (hc ▸ List.mem_map_of_mem TrackInfo.track_id hx)
    simpa using hx1
  have hfilter : (read_backlog s).filter (fun item => item.track_id != e.track_id) = rest := by
    rw [hread, List.filter_cons, if_neg (by simp)]
    exact List.filter_eq_self.mpr hne
  have hlt : rest.length < (read_backlog s).length := by
    rw [hread]
    exact Nat.lt_succ_self rest.length
  unfold remove_track
  simp only [hfilter]
  rw [if_pos hlt]

theorem process_backlog_drain (cap : String → DlOutcome) :
    ∀ (n : Nat) (s : StoreFile),
      (read_backlog s).length ≤ n →
      ((read_backlog s).map TrackInfo.track_id).Nodup →
      (∀ e ∈ read_backlog s, (download_track cap e).1 = true) →
      (process_backlog cap n s).attempts = read_backlog s ∧
      read_backlog (process_backlog cap n s).store = [] ∧
      (process_backlog cap n s).downloaded = (read_backlog s).length := by
  intro n
  induction n with
  | zero =>
    intro s hlen _ _
    have hnil : read_backlog s = [] := List.length_eq_zero.mp (Nat.le_zero.mp hlen)
    exact ⟨hnil.symm, by simp [process_backlog, hnil], by simp [process_backlog, hnil]⟩
  | succ n ih =>
    intro s hlen hnodup hdl
    cases hread : read_backlog s with
    | nil =>
      have hnext : (get_next_track s).ret = none := by simp [get_next_track, hread]
      simp only [process_backlog]
      rw [hnext]
      simp [hread]
    | cons e rest =>
      have hnext : (get_next_track s).ret = some e := by simp [get_next_track, hread]
      have hdle : (download_track cap e).1 = true :=
        hdl e (by rw [hread]; exact List.mem_cons_self e rest)
      rw [hread] at hnodup
      simp only [List.map_cons, List.nodup_cons] at hnodup
      have hrm : (remove_track s e.track_id).store = write_backlog rest :=
        remove_track_head hread hnodup.1
      have hread1 : read_backlog (remove_track s e.track_id).store = rest := by
        rw [hrm]
        rfl
      have ih1 := ih (remove_track s e.track_id).store
        (by rw [hread1]; rw [hread] at hlen; exact Nat.le_of_succ_le_succ hlen)
        (by rw [hread1]; exact hnodup.2)
        (by
          rw [hread1]
          intro x hx
          exact hdl x (by rw [hread]; exact List.mem_cons_of_mem e hx))
      rw [process_backlog_succ_ok n hnext hdle]
      refine ⟨?_, ih1.2.1, ?_⟩
      · exact congrArg (e :: ·) (by rw [ih1.1, hread1])
      · simp only [List.length_cons]
        rw [ih1.2.2, hread1]

/-- C6. FIFO drain order: `enqueueIfAbsent` appends at the tail, removal
preserves the relative order of the remaining entries (the result is a
sublist of the original), `peekFront` returns the first-enqueued entry
still present, and — when every entry's retrieval succeeds and identifiers
are duplicate-free — a large enough batch drains the entries exactly in
their enqueue order, emptying the store. -/
theorem backlog_fifo_order :
    (∀ (s : StoreFile) (e : TrackInfo) (t : String),
       (∀ i ∈ read_backlog s, i.track_id ≠ e.track_id) →
       read_backlog (add_track s e t).store = read_backlog s ++ [stampAddedAt e t]) ∧
    (∀ (s : StoreFile) (track_id : String),
       List.Sublist (read_backlog (remove_track s track_id).store) (read_backlog s)) ∧
    (∀ s : StoreFile, (get_next_track s).ret = (read_backlog s).head?) ∧
    (∀ (cap : String → DlOutcome) (n : Nat) (s : StoreFile),
       (read_backlog s).length ≤ n →
       ((read_backlog s).map TrackInfo.track_id).Nodup →
       (∀ e ∈ read_backlog s, (download_track cap e).1 = true) →
       (process_backlog cap n s).attempts = read_backlog s ∧
       read_backlog (process_backlog cap n s).store = [] ∧
       (process_backlog cap n s).downloaded = (read_backlog s).length) := by
  refine ⟨?_, ?_, ?_, fun cap n s => process_backlog_drain cap n s⟩
  · intro s e t h
    have hany : (read_backlog s).any (fun item => item.track_id == e.track_id) = false := by
      refine List.any_eq_false.mpr ?_
      intro i hi
      simpa using h i hi
    unfold add_track
    simp only [hany, Bool.false_eq_true, if_false]
    rfl
  · intro s track_id
    unfold remove_track
    by_cases hlt : ((read_backlog s).filter (fun item => item.track_id != track_id)).length
        < (read_backlog s).length
    · simp only [hlt, if_pos]
      exact List.filter_sublist _
    · simp only [hlt, if_neg, not_false_iff]
      exact List.Sublist.refl _
  · intro s
    cases h : read_backlog s <;> simp [get_next_track, h]

/-- Witness for C6: a two-entry store with an always-succeeding capability
drains in enqueue order and ends empty; the tail-append part at a store
not containing the identifier. -/
theorem backlog_fifo_order_witness :
    read_backlog (add_track (StoreFile.wellFormed [sampleTrack "1"]) (sampleTrack "2") "T").store
      = read_backlog (StoreFile.wellFormed [sampleTrack "1"])
          ++ [stampAddedAt (sampleTrack "2") "T"] ∧
    ((process_backlog (fun _ => DlOutcome.success) 2
        (StoreFile.wellFormed [sampleTrack "1", sampleTrack "2"])).attempts
       = read_backlog (StoreFile.wellFormed [sampleTrack "1", sampleTrack "2"]) ∧
     read_backlog (process_backlog (fun _ => DlOutcome.success) 2
        (StoreFile.wellFormed [sampleTrack "1", sampleTrack "2"])).store = [] ∧
     (process_backlog (fun _ => DlOutcome.success) 2
        (StoreFile.wellFormed [sampleTrack "1", sampleTrack "2"])).downloaded
       = (read_backlog (StoreFile.wellFormed [sampleTrack "1", sampleTrack "2"])).length) :=
  ⟨backlog_fifo_order.1 (StoreFile.wellFormed [sampleTrack "1"]) (sampleTrack "2") "T"
      (by decide),
   backlog_fifo_order.2.2.2 (fun _ => DlOutcome.success) 2
     (StoreFile.wellFormed [sampleTrack "1", sampleTrack "2"])
     (by decide) (by decide) (by decide)⟩

end ZotifyDownloader
